import Mathlib

/-!
# Filesense.ai — processing pipeline and quota gating, shallow embedding

This file embeds the quota checks, the backend processing pipeline
(`processFilesAsync` / `processIndividualFile`), the client stage functions of
`ProcessingScreen` (`extractTextFromFiles`, `analyzeFilesWithAI`,
`applyNewFilenames`), the service-layer `batchRenameFiles`, the fallback
filename generator, and the HTTP handlers `processFiles` /
`getProcessingStatus`, and proves or refutes the specified properties about
them.  Every definition mirrors one function of the TypeScript source; machine
arithmetic on progress values uses `Nat`/`ℚ` (the source values stay far below
any overflow boundary, and the progress formulas are exact rational
expressions).
-/

namespace Filesense

/-- JavaScript string-truthiness of an optional string: `undefined` and the
empty string are falsy (`s || dflt`). -/
def jsOrElse (o : Option String) (dflt : String) : String :=
  match o with
  | some s => if s = "" then dflt else s
  | none => dflt

/-- JavaScript truthiness test for an optional string (`if (s) ...`). -/
def jsTruthy (o : Option String) : Bool :=
  match o with
  | some s => s ≠ ""
  | none => false

/-! ## Quota gating

`checkFileProcessingLimit` (backend middleware) for guests, the backend
`DatabaseService.canProcessFiles` for registered users, and the mobile
`AuthService.canProcessFiles`. -/

/-- User roles as declared in `database.ts` (`'free' | 'premium' | 'admin'`). -/
inductive Role
  | free
  | premium
  | admin
deriving DecidableEq, Repr

/-- The slice of `UserDocument` that the quota check reads. -/
structure UserDoc where
  role : Role
  monthlyLimit : Int
  filesProcessedThisMonth : Int
deriving DecidableEq, Repr

/-- Result shape `{ canProcess, remainingFiles }` returned by both
`DatabaseService.canProcessFiles` and `AuthService.canProcessFiles`. -/
structure QuotaCheck where
  canProcess : Bool
  remainingFiles : Int
deriving DecidableEq, Repr

/-- `DatabaseService.canProcessFiles` (backend `database.ts`):
`remainingFiles = monthlyLimit - filesProcessedThisMonth`;
`canProcess = remainingFiles >= fileCount || role === 'premium'`. -/
def dbCanProcessFiles (user : UserDoc) (fileCount : Int) : QuotaCheck :=
  let remainingFiles := user.monthlyLimit - user.filesProcessedThisMonth
  { canProcess := decide (remainingFiles ≥ fileCount) || decide (user.role = Role.premium)
    remainingFiles := remainingFiles }

/-- `AuthService.canProcessFiles` (mobile client): a guest (no current user)
gets `{ canProcess: fileCount <= 5, remainingFiles: 5 }`; a registered user
gets the same rule as the backend database check. -/
def authCanProcessFiles (currentUser : Option UserDoc) (fileCount : Int) : QuotaCheck :=
  match currentUser with
  | none => { canProcess := decide (fileCount ≤ 5), remainingFiles := 5 }
  | some u => dbCanProcessFiles u fileCount

/-- Rejection payload `data` of the guest branch of the backend middleware
`checkFileProcessingLimit`. -/
structure GuestRejectData where
  guestLimit : Nat
  currentCount : Nat
  requestedCount : Nat
deriving DecidableEq, Repr

/-- Outcome of the guest branch of `checkFileProcessingLimit`: either a 403
rejection carrying `{guestLimit, currentCount, requestedCount}`, or `next()`
with the session's guest count updated to `guestFileCount + fileCount`. -/
inductive GuestDecision
  | rejected (data : GuestRejectData)
  | allowed (newGuestCount : Nat)
deriving DecidableEq, Repr

/-- Guest branch of `checkFileProcessingLimit` (backend middleware): reject
when `guestFileCount + fileCount > 5`, otherwise store
`guestFileCount + fileCount` in the session and continue. -/
def checkGuestFileLimit (guestFileCount fileCount : Nat) : GuestDecision :=
  if guestFileCount + fileCount > 5 then
    GuestDecision.rejected { guestLimit := 5, currentCount := guestFileCount,
                             requestedCount := fileCount }
  else
    GuestDecision.allowed (guestFileCount + fileCount)

/-- The remaining allowance a guest decision communicates: an admitted
submission reports nothing, and a rejection reports `guestLimit` and
`currentCount`, whose difference is the remaining allowance before the
rejected submission. -/
def guestRemainingReported (d : GuestDecision) : Option Int :=
  match d with
  | GuestDecision.rejected data => some ((data.guestLimit : Int) - data.currentCount)
  | GuestDecision.allowed _ => none

/-! ## Fallback filename generation (`generateFallbackFilename`) -/

/-- `keyword.charAt(0).toUpperCase() + keyword.slice(1)`. -/
def capitalizeFirst (s : String) : String :=
  match s.data with
  | [] => ""
  | c :: cs => String.mk (c.toUpper :: cs)

/-- Keyword list of `generateFallbackFilename`, in source order. -/
def fallbackKeywords : List String :=
  ["invoice", "receipt", "contract", "report", "document", "letter"]

/-- Split a character list at the characters satisfying `p`
(JavaScript-style `split`, keeping empty segments). -/
def splitByAux (p : Char → Bool) : List Char → List Char → List (List Char)
  | [], acc => [acc.reverse]
  | c :: cs, acc =>
    if p c then acc.reverse :: splitByAux p cs []
    else splitByAux p cs (c :: acc)

/-- The token list `extractedText.toLowerCase().split(/\s+/)`: splitting at
whitespace may produce empty tokens that the JavaScript regex split
collapses, but membership of a (non-empty, whitespace-free) keyword in the
list is identical, and membership is the only use the source makes of it. -/
def fallbackWords (extractedText : String) : List String :=
  (splitByAux (fun c => c.isWhitespace) (extractedText.data.map Char.toLower) []).map String.mk

/-- `generateFallbackFilename` (backend `fileController.ts`): scan the keyword
list in order; the first keyword occurring as a whitespace-delimited word of
the lower-cased text yields `Keyword_<date>`; otherwise `Document_<date>`.
The current date (`new Date().toISOString().slice(0,10)` with the dashes
stripped) is passed in as the `today` argument, so within one day it is a
fixed string. -/
def generateFallbackFilename (extractedText : String) (today : String) : String :=
  match fallbackKeywords.find? (fun k => (fallbackWords extractedText).contains k) with
  | some k => capitalizeFirst k ++ "_" ++ today
  | none => "Document_" ++ today

/-- `s.startsWith(p)` expressed over the underlying character lists. -/
def stringLeads (p s : String) : Bool :=
  decide (s.data.take p.data.length = p.data)

/-! ## `processFiles` handler and `getProcessingStatus` -/

/-- Session document shape (`ProcessingSessionDocument`) as far as the status
endpoint and the pipeline read/write it. -/
structure SessionDoc where
  status : String
  progress : Nat
  currentFileIndex : Nat
  totalFiles : Nat
  processedFiles : Nat
  renamedFiles : Nat
  failedFiles : Nat
deriving DecidableEq, Repr

/-- Response of the `processFiles` handler, reduced to the observable facts:
whether the request succeeded, the error code, whether a processing session
was created, and the `totalFiles` it reports. -/
structure ProcessResponse where
  ok : Bool
  code : String
  sessionCreated : Bool
  totalFiles : Nat
deriving DecidableEq, Repr

/-- `processFiles` (backend `fileController.ts`): reject with `NO_FILE_IDS`
and create no session exactly when `req.body.fileIds` is missing or empty;
otherwise create a session with `totalFiles = fileIds.length` and answer
success.  No length ceiling and no Joi schema runs on this endpoint. -/
def processFilesHandler (fileIds : Option (List String)) : ProcessResponse :=
  match fileIds with
  | none => { ok := false, code := "NO_FILE_IDS", sessionCreated := false, totalFiles := 0 }
  | some ids =>
    if ids.isEmpty then
      { ok := false, code := "NO_FILE_IDS", sessionCreated := false, totalFiles := 0 }
    else
      { ok := true, code := "", sessionCreated := true, totalFiles := ids.length }

/-- The length bound (`min(1).max(20)`) of the declared `processFilesSchema`;
the schema is defined in the controller but never invoked by any handler. -/
def processFilesSchemaLengthOk (n : Nat) : Bool :=
  decide (1 ≤ n) && decide (n ≤ 20)

/-- Response of `getProcessingStatus`, as returned to the poller. -/
structure StatusResponse where
  sessionId : String
  status : String
  progress : Nat
  currentFileIndex : Nat
  totalFiles : Nat
  processedFiles : Nat
  renamedFiles : Nat
  failedFiles : Nat
deriving DecidableEq, Repr

/-- `getProcessingStatus` (backend `fileController.ts`): the stored sessions
are never consulted ("For now, return mock status"); the handler answers a
fixed snapshot `{status: 'processing', progress: 65, currentFileIndex: 2,
totalFiles: 5, processedFiles: 2, renamedFiles: 1, failedFiles: 0}` with the
requested session id, and leaves the store untouched. -/
def getProcessingStatus (store : List (String × SessionDoc)) (sessionId : String) :
    List (String × SessionDoc) × StatusResponse :=
  (store,
   { sessionId := sessionId, status := "processing", progress := 65,
     currentFileIndex := 2, totalFiles := 5, processedFiles := 2,
     renamedFiles := 1, failedFiles := 0 })

/-! ## Backend pipeline (`processFilesAsync` / `processIndividualFile`)

The run is modelled as the chronological list of writes to the session
document, the final per-file statuses, and the usage-counter increments.  The
only per-file failure source (the persistence/provider work of
`processIndividualFile`) is abstracted as an `Except String Unit` outcome per
file, supplied up front. -/

/-- Session status values of `ProcessingSessionDocument.status`. -/
inductive SessStatus
  | pending
  | processing
  | completed
  | failed
deriving DecidableEq, Repr

/-- Per-file `processingStatus` values of `FileDocument`. -/
inductive FileStatus
  | pending
  | processing
  | completed
  | failed
deriving DecidableEq, Repr

/-- One call to `DatabaseService.updateProcessingSession`: fields absent from
the update object are left unchanged on the stored session. -/
structure SessionWrite where
  status : Option SessStatus
  progress : Option Nat
  errorMessage : Option String
deriving DecidableEq, Repr

/-- `Math.round((num / den) * 100)` for `0 < den` — exact, since every value
the pipeline feeds in has a small denominator whose rounding agrees with real
arithmetic. -/
def jsRound100 (num den : Nat) : Nat :=
  (200 * num + den) / (2 * den)

/-- Usage-counter increments performed at the end of a successful run:
`incrementFileCount` bumps `filesProcessedThisMonth` and
`totalFilesProcessed`; `updateUsageStats` bumps the monthly stats document. -/
structure UsageDelta where
  filesProcessedThisMonth : Nat
  totalFilesProcessed : Nat
  statsFilesProcessed : Nat
  statsTextExtracted : Nat
deriving DecidableEq, Repr

/-- No usage increment. -/
def UsageDelta.zero : UsageDelta :=
  { filesProcessedThisMonth := 0, totalFilesProcessed := 0,
    statsFilesProcessed := 0, statsTextExtracted := 0 }

/-- Everything observable about one backend run. -/
structure RunResult where
  writes : List SessionWrite
  fileStatuses : List FileStatus
  usage : UsageDelta
deriving DecidableEq, Repr

/-- `processIndividualFile`: on success the file ends `completed` and nothing
propagates; on failure the file is marked `failed` and the error is
re-thrown (`throw error`), so it propagates to the caller. -/
def processIndividualFile (outcome : Except String Unit) : FileStatus × Option String :=
  match outcome with
  | Except.ok _ => (FileStatus.completed, none)
  | Except.error msg => (FileStatus.failed, some msg)

/-- The `for` loop of `processFilesAsync`: before working on file `i` it
writes `progress = Math.round(((i+1)/n)*100)`, then runs
`processIndividualFile`; a propagated error ends the loop at once.  Returns
the session writes, the statuses of the files actually visited, and the
escaped error, if any. -/
def processLoop (outcomes : List (Except String Unit)) (n i : Nat) :
    List SessionWrite × List FileStatus × Option String :=
  match outcomes with
  | [] => ([], [], none)
  | o :: rest =>
    let w : SessionWrite :=
      { status := none, progress := some (jsRound100 (i + 1) n), errorMessage := none }
    match processIndividualFile o with
    | (st, none) =>
      let r := processLoop rest n (i + 1)
      (w :: r.1, st :: r.2.1, r.2.2)
    | (st, some msg) => ([w], [st], some msg)

/-- `processFilesAsync`: write `{status: processing, progress: 10}`, run the
loop, and either finish with `{status: completed, progress: 100}` plus the
usage increments (by the total number of submitted files, for an
authenticated owner only), or — when an error escapes the loop — write
`{status: failed, errorMessage}` and increment nothing.  Files the loop never
reached keep their initial `pending` status. -/
def processFilesAsync (outcomes : List (Except String Unit)) (userId : Option String) :
    RunResult :=
  let n := outcomes.length
  let startWrite : SessionWrite :=
    { status := some SessStatus.processing, progress := some 10, errorMessage := none }
  let r := processLoop outcomes n 0
  match r.2.2 with
  | none =>
    { writes := startWrite :: r.1 ++
        [{ status := some SessStatus.completed, progress := some 100, errorMessage := none }]
      fileStatuses := r.2.1
      usage :=
        match userId with
        | some _ =>
          { filesProcessedThisMonth := n, totalFilesProcessed := n,
            statsFilesProcessed := n, statsTextExtracted := n }
        | none => UsageDelta.zero }
  | some msg =>
    { writes := startWrite :: r.1 ++
        [{ status := some SessStatus.failed, progress := none, errorMessage := some msg }]
      fileStatuses := r.2.1 ++ List.replicate (n - r.2.1.length) FileStatus.pending
      usage := UsageDelta.zero }

/-- The session fields a poller can observe. -/
structure SessionObs where
  status : SessStatus
  progress : Nat
  errorMessage : Option String
deriving DecidableEq, Repr

/-- Apply one partial update to the stored session. -/
def applyWrite (s : SessionObs) (w : SessionWrite) : SessionObs :=
  { status := w.status.getD s.status
    progress := w.progress.getD s.progress
    errorMessage :=
      match w.errorMessage with
      | some m => some m
      | none => s.errorMessage }

/-- Session as created by `createProcessingSession` (status `pending`,
progress `0`). -/
def initialSession : SessionObs :=
  { status := SessStatus.pending, progress := 0, errorMessage := none }

/-- Every state of the session a poller can see over one run, in order. -/
def observedStates (ws : List SessionWrite) : List SessionObs :=
  ws.scanl applyWrite initialSession

/-- The session state after the run. -/
def finalSession (ws : List SessionWrite) : SessionObs :=
  ws.foldl applyWrite initialSession

/-- The message of the first failing outcome, if any — the error that escapes
the processing loop. -/
def firstError : List (Except String Unit) → Option String
  | [] => none
  | Except.ok _ :: rest => firstError rest
  | Except.error msg :: _ => some msg

/-- The write list never lowers the session's progress when replayed from a
session whose progress is `p`. -/
def progressMono : Nat → List SessionWrite → Prop
  | _, [] => True
  | p, w :: ws => p ≤ w.progress.getD p ∧ progressMono (w.progress.getD p) ws

/-- The progress value the session holds after replaying the writes from
progress `p`. -/
def finalProgress (p : Nat) (ws : List SessionWrite) : Nat :=
  ws.foldl (fun q w => w.progress.getD q) p

/-! ## Client pipeline (`ProcessingScreen` stage functions, `fileService`) -/

/-- Declared file types of `FileItem`. -/
inductive FileType
  | image
  | pdf
  | document
deriving DecidableEq, Repr

/-- The slice of the client `FileItem` the pipeline reads and writes. -/
structure FileItem where
  id : String
  name : String
  originalName : String
  type : FileType
  extractedText : Option String
  suggestedName : Option String
  isRenamed : Bool
  isProcessing : Bool
  processingProgress : Nat
deriving DecidableEq, Repr

/-- One `setProcessingStatus` snapshot `{stage, message, progress,
currentFile}`.  Progress is the exact rational value the JS float expression
denotes. -/
structure StatusUpdate where
  stage : String
  message : String
  progress : ℚ
  currentFile : Option String
deriving DecidableEq, Repr

/-- `s.includes(sub)` on JavaScript strings. -/
def strIncludes (s sub : String) : Bool :=
  if sub = "" then true else decide ((s.splitOn sub).length ≠ 1)

/-- `getMockExtractedText` (ProcessingScreen): canned text per file type. -/
def getMockExtractedText (file : FileItem) : String :=
  match file.type with
  | FileType.image =>
    "Invoice from ACME Corporation\nAmount: $142.50\nDue Date: August 30, 2023\nAccount Number: 12345"
  | FileType.pdf =>
    "Monthly Report - Q3 2023\nSales Performance Summary\nTotal Revenue: $45,000\nGrowth: +15%"
  | FileType.document =>
    "Document content extracted successfully\nDate: December 2023\nType: Business Document"

/-- `generateMockFilename` (ProcessingScreen): keyword lookup over the
extracted text; a file without extracted text falls through to the default. -/
def generateMockFilename (file : FileItem) : String :=
  match file.extractedText with
  | some t =>
    if strIncludes t "Invoice" then "Invoice_ACME_Corp_Aug_2023"
    else if strIncludes t "Report" then "Monthly_Report_Q3_2023"
    else if strIncludes t "Receipt" then "Receipt_Store_Dec_2023"
    else "Document_Dec_2023"
  | none => "Document_Dec_2023"

/-- `file.name.split('.').pop()` — the text after the last dot (the whole
name when it has no dot). -/
def fileExtension (name : String) : String :=
  ((splitByAux (fun c => c = '.') name.data []).map String.mk).getLastD ""

/-- Stage 1 `extractTextFromFiles`: emits the stage-entry status and, before
working on the file at position `i` of `n`, a snapshot with
`progress = (i / n) * 33`; each file gains `extractedText` and finishes the
stage with `processingProgress = 100`. -/
def extractTextFromFiles (files : List FileItem) : List StatusUpdate × List FileItem :=
  let n : ℚ := files.length
  ({ stage := "extracting", message := "Extracting text from files...",
     progress := 0, currentFile := none } ::
     files.enum.map (fun p =>
       { stage := "extracting", message := "Extracting text from " ++ p.2.name ++ "...",
         progress := ((p.1 : ℚ) / n) * 33, currentFile := some p.2.name }),
   files.map (fun file =>
     { file with extractedText := some (getMockExtractedText file),
                 isProcessing := false, processingProgress := 100 }))

/-- Stage 2 `analyzeFilesWithAI`: stage entry at progress `33`; before file
`i` of `n` a snapshot with `progress = 33 + (i / n) * 33`; each file gains a
`suggestedName`. -/
def analyzeFilesWithAI (files : List FileItem) : List StatusUpdate × List FileItem :=
  let n : ℚ := files.length
  ({ stage := "analyzing", message := "AI is analyzing content...",
     progress := 33, currentFile := none } ::
     files.enum.map (fun p =>
       { stage := "analyzing", message := "Analyzing " ++ p.2.name ++ "...",
         progress := 33 + ((p.1 : ℚ) / n) * 33, currentFile := some p.2.name }),
   files.map (fun file =>
     { file with suggestedName := some (generateMockFilename file),
                 isProcessing := false, processingProgress := 100 }))

/-- The per-file body of `applyNewFilenames`: `newName = suggestedName ||
name`, `finalName = newName + '.' + name.split('.').pop()`, and the file is
marked `isRenamed: true` unconditionally. -/
def applyNewFilenameStep (file : FileItem) : FileItem :=
  let newName := jsOrElse file.suggestedName file.name
  let finalName := newName ++ "." ++ fileExtension file.name
  { file with name := finalName, isProcessing := false, isRenamed := true,
              processingProgress := 100 }

/-- Stage 3 `applyNewFilenames` (ProcessingScreen): stage entry at progress
`66`; before file `i` of `n` a snapshot with `progress = 66 + (i / n) * 34`;
every file is renamed via `applyNewFilenameStep`. -/
def applyNewFilenames (files : List FileItem) : List StatusUpdate × List FileItem :=
  let n : ℚ := files.length
  ({ stage := "renaming", message := "Applying new filenames...",
     progress := 66, currentFile := none } ::
     files.enum.map (fun p =>
       { stage := "renaming", message := "Renaming " ++ p.2.name ++ "...",
         progress := 66 + ((p.1 : ℚ) / n) * 34, currentFile := some p.2.name }),
   files.map applyNewFilenameStep)

/-- `fileService.renameFile`: the mock always reports success. -/
def renameFile (_file : FileItem) (_newName : String) : Bool :=
  true

/-- A concrete file that reaches the rename stage with no suggested name. -/
def scanPdfFile : FileItem :=
  { id := "1", name := "scan.pdf", originalName := "scan.pdf", type := FileType.pdf,
    extractedText := some "Document content", suggestedName := none,
    isRenamed := false, isProcessing := false, processingProgress := 0 }

/-- A concrete file that reaches the rename stage with a suggested name. -/
def renamableFile : FileItem :=
  { id := "2", name := "a.pdf", originalName := "a.pdf", type := FileType.pdf,
    extractedText := some "Invoice from ACME", suggestedName := some "Invoice_X",
    isRenamed := false, isProcessing := false, processingProgress := 0 }

/-- A concrete image file for stage-trace witnesses. -/
def sampleImageFile : FileItem :=
  { id := "3", name := "IMG_1.jpg", originalName := "IMG_1.jpg", type := FileType.image,
    extractedText := none, suggestedName := none,
    isRenamed := false, isProcessing := false, processingProgress := 0 }

/-- The per-file body of `fileService.batchRenameFiles`: a file with a
truthy `suggestedName` is renamed to `suggestedName + '.' + oldExtension`
and marked with the rename outcome; any other file is pushed through
unchanged. -/
def batchRenameFileStep (file : FileItem) : FileItem :=
  if jsTruthy file.suggestedName then
    let success := renameFile file (file.suggestedName.getD "")
    { file with
      name := if success then file.suggestedName.getD "" ++ "." ++ fileExtension file.name
              else file.name
      isRenamed := success }
  else file

/-- `fileService.batchRenameFiles`: apply `batchRenameFileStep` to each file
in order. -/
def batchRenameFiles (files : List FileItem) : List FileItem :=
  files.map batchRenameFileStep

/-! ## Theorems -/

/-- The guest branch of the middleware as a single conditional. -/
theorem checkGuestFileLimit_eq (c f : Nat) :
    checkGuestFileLimit c f =
      if c + f ≤ 5 then GuestDecision.allowed (c + f)
      else GuestDecision.rejected
        { guestLimit := 5, currentCount := c, requestedCount := f } := by
  unfold checkGuestFileLimit
  by_cases h : c + f ≤ 5
  · rw [if_pos h, if_neg (by omega)]
  · rw [if_neg h, if_pos (by omega)]

/-- C4: for a guest caller with cumulative guest count `c` submitting `f`
files, the backend middleware admits exactly when `c + f ≤ 5` (storing the
new cumulative count `c + f`), and a submission that would push the count
past 5 is rejected with a payload reporting limit 5 and current count `c`,
hence a remaining allowance of `5 - c`; the client-side guest check, which
keeps no cumulative count (so its count is 0), decides `0 + f ≤ 5` and
reports a remaining allowance of `5 - 0 = 5`. -/
theorem c4_guest_quota (c f : Nat) :
    ((∃ k, checkGuestFileLimit c f = GuestDecision.allowed k) ↔ c + f ≤ 5) ∧
    (c + f ≤ 5 → checkGuestFileLimit c f = GuestDecision.allowed (c + f)) ∧
    (5 < c + f →
      checkGuestFileLimit c f =
        GuestDecision.rejected
          { guestLimit := 5, currentCount := c, requestedCount := f } ∧
      guestRemainingReported (checkGuestFileLimit c f) = some (5 - (c : Int))) ∧
    ((authCanProcessFiles none (f : Int)).canProcess = decide ((0 + (f : Int)) ≤ 5) ∧
      (authCanProcessFiles none (f : Int)).remainingFiles = 5 - (0 : Int)) := by
  refine ⟨⟨?_, ?_⟩, ?_, ?_, ?_, ?_⟩
  · rintro ⟨k, hk⟩
    rw [checkGuestFileLimit_eq] at hk
    by_cases h : c + f ≤ 5
    · exact h
    · rw [if_neg h] at hk
      cases hk
  · intro h
    exact ⟨c + f, by rw [checkGuestFileLimit_eq, if_pos h]⟩
  · intro h
    rw [checkGuestFileLimit_eq, if_pos h]
  · intro h
    have hn : ¬ c + f ≤ 5 := by omega
    constructor
    · rw [checkGuestFileLimit_eq, if_neg hn]
    · rw [checkGuestFileLimit_eq, if_neg hn]
      simp [guestRemainingReported]
  · simp [authCanProcessFiles]
  · simp [authCanProcessFiles]

/-- Witness for C4 at a concrete rejected submission: a guest who already
used 3 of the 5 slots and asks for 4 more is rejected, with a reported
remaining allowance of `5 - 3 = 2`. -/
theorem c4_guest_quota_witness :
    checkGuestFileLimit 3 4 =
      GuestDecision.rejected { guestLimit := 5, currentCount := 3, requestedCount := 4 } ∧
    guestRemainingReported (checkGuestFileLimit 3 4) = some (5 - (3 : Int)) :=
  (c4_guest_quota 3 4).2.2.1 (by decide)

/-- C5 counterexample: the code never reports an unbounded remaining
allowance for a premium user — `remainingFiles` is always the finite
`monthlyLimit - filesProcessedThisMonth`, so it varies with usage (2 after 3
of 5, then 1 after 4 of 5) even while 10 files are being admitted. -/
theorem c5_premium_remaining_counterexample :
    (dbCanProcessFiles
        { role := Role.premium, monthlyLimit := 5, filesProcessedThisMonth := 3 } 10).canProcess
      = true ∧
    (dbCanProcessFiles
        { role := Role.premium, monthlyLimit := 5, filesProcessedThisMonth := 3 } 10).remainingFiles
      = 2 ∧
    (dbCanProcessFiles
        { role := Role.premium, monthlyLimit := 5, filesProcessedThisMonth := 4 } 10).remainingFiles
      = 1 := by
  decide

/-- C5 amended: a premium user is allowed unconditionally, but the reported
remaining allowance is `monthlyLimit - filesProcessedThisMonth` for every
role (no unbounded sentinel); for a non-premium user the decision is allowed
exactly when that remaining allowance covers `fileCount`. -/
theorem c5_registered_quota (u : UserDoc) (fileCount : Int) :
    (u.role = Role.premium → (dbCanProcessFiles u fileCount).canProcess = true) ∧
    (dbCanProcessFiles u fileCount).remainingFiles =
      u.monthlyLimit - u.filesProcessedThisMonth ∧
    (u.role ≠ Role.premium →
      ((dbCanProcessFiles u fileCount).canProcess = true ↔
        fileCount ≤ u.monthlyLimit - u.filesProcessedThisMonth)) := by
  refine ⟨?_, rfl, ?_⟩
  · intro h
    simp [dbCanProcessFiles, h]
  · intro h
    simp [dbCanProcessFiles, h]

/-- Witness for C5 (amended) at a concrete premium user. -/
theorem c5_registered_quota_witness :
    (dbCanProcessFiles
        { role := Role.premium, monthlyLimit := 5, filesProcessedThisMonth := 3 } 10).canProcess
      = true :=
  (c5_registered_quota
      { role := Role.premium, monthlyLimit := 5, filesProcessedThisMonth := 3 } 10).1 rfl

/-- C7 counterexample: the status endpoint does not return the stored
snapshot.  With a stored session that is `completed` at progress 100 over 3
files, the response still says `processing` at progress 65 over 5 files. -/
theorem c7_status_counterexample :
    (getProcessingStatus
        [("s1", { status := "completed", progress := 100, currentFileIndex := 2,
                  totalFiles := 3, processedFiles := 3, renamedFiles := 3,
                  failedFiles := 0 })] "s1").2.status = "processing" ∧
    (getProcessingStatus
        [("s1", { status := "completed", progress := 100, currentFileIndex := 2,
                  totalFiles := 3, processedFiles := 3, renamedFiles := 3,
                  failedFiles := 0 })] "s1").2.progress = 65 ∧
    (65 : Nat) ≠ 100 ∧ "processing" ≠ "completed" := by
  refine ⟨rfl, rfl, by decide, by decide⟩

/-- C7 amended: the status read answers a fixed mock snapshot (status
`processing`, progress 65, 2 of 5 files processed) carrying only the
requested session id; it never consults or mutates the session store, so
repeated polls return identical results. -/
theorem c7_status_read_constant (store : List (String × SessionDoc)) (sessionId : String) :
    getProcessingStatus store sessionId =
      (store,
       { sessionId := sessionId, status := "processing", progress := 65,
         currentFileIndex := 2, totalFiles := 5, processedFiles := 2,
         renamedFiles := 1, failedFiles := 0 }) ∧
    (getProcessingStatus (getProcessingStatus store sessionId).1 sessionId).2 =
      (getProcessingStatus store sessionId).2 :=
  ⟨rfl, rfl⟩

/-- C8 counterexample: "Invoice," contains the substring "Invoice" (it even
begins with it), yet the fallback generator produces a `Document_` name for
it, because the keyword scan matches whole whitespace-delimited tokens
only. -/
theorem c8_fallback_counterexample :
    stringLeads "Invoice" "Invoice," = true ∧
    generateFallbackFilename "Invoice," "20251011" = "Document_20251011" ∧
    stringLeads "Invoice_" (generateFallbackFilename "Invoice," "20251011") = false := by
  refine ⟨by decide, by decide, by decide⟩

/-- C8 amended: the fallback generator is a pure function of the extracted
text and the day's date string, hence deterministic within one day; text
whose lower-cased whitespace-delimited tokens include "invoice" yields
`Invoice_<date>`, and text whose tokens include none of the six recognized
keywords yields `Document_<date>`. -/
theorem c8_fallback_deterministic (text today : String) :
    ((fallbackWords text).contains "invoice" = true →
      generateFallbackFilename text today = "Invoice_" ++ today) ∧
    ((∀ k ∈ fallbackKeywords, (fallbackWords text).contains k = false) →
      generateFallbackFilename text today = "Document_" ++ today) := by
  constructor
  · intro h
    unfold generateFallbackFilename
    rw [show fallbackKeywords =
          "invoice" :: ["receipt", "contract", "report", "document", "letter"] from rfl,
        List.find?_cons_of_pos _ h]
    rfl
  · intro h
    have h1 := h "invoice" (by simp [fallbackKeywords])
    have h2 := h "receipt" (by simp [fallbackKeywords])
    have h3 := h "contract" (by simp [fallbackKeywords])
    have h4 := h "report" (by simp [fallbackKeywords])
    have h5 := h "document" (by simp [fallbackKeywords])
    have h6 := h "letter" (by simp [fallbackKeywords])
    unfold generateFallbackFilename
    rw [show fallbackKeywords =
          "invoice" :: "receipt" :: "contract" :: "report" :: "document" :: ["letter"] from rfl,
        List.find?_cons_of_neg _ (by rw [h1]; simp),
        List.find?_cons_of_neg _ (by rw [h2]; simp),
        List.find?_cons_of_neg _ (by rw [h3]; simp),
        List.find?_cons_of_neg _ (by rw [h4]; simp),
        List.find?_cons_of_neg _ (by rw [h5]; simp),
        List.find?_cons_of_neg _ (by rw [h6]; simp),
        List.find?_nil]

/-- Witness for C8 at concrete inputs on both branches. -/
theorem c8_fallback_witness :
    generateFallbackFilename "Invoice total due" "20251011" = "Invoice_" ++ "20251011" ∧
    generateFallbackFilename "Hello world" "20251011" = "Document_" ++ "20251011" :=
  ⟨(c8_fallback_deterministic "Invoice total due" "20251011").1 (by decide),
   (c8_fallback_deterministic "Hello world" "20251011").2 (by decide)⟩

/-- C10: the process-files endpoint rejects (with `NO_FILE_IDS`, creating no
session) exactly when the file-id list is missing or empty; any non-empty
list of any length yields a success response and a session with `totalFiles`
equal to the list length; in particular a 21-element list — which the
declared (but never invoked) schema's 20-file ceiling would reject — is
accepted. -/
theorem c10_process_endpoint (fileIds : Option (List String)) :
    (((processFilesHandler fileIds).sessionCreated = false ∧
        (processFilesHandler fileIds).code = "NO_FILE_IDS") ↔
      (fileIds = none ∨ fileIds = some [])) ∧
    (∀ ids, fileIds = some ids → ids ≠ [] →
      processFilesHandler fileIds =
        { ok := true, code := "", sessionCreated := true, totalFiles := ids.length }) ∧
    (processFilesSchemaLengthOk 21 = false ∧
      (processFilesHandler (some (List.replicate 21 "file"))).sessionCreated = true ∧
      (processFilesHandler (some (List.replicate 21 "file"))).totalFiles = 21) := by
  refine ⟨?_, ?_, by decide⟩
  · match fileIds with
    | none => simp [processFilesHandler]
    | some [] => simp [processFilesHandler]
    | some (x :: xs) => simp [processFilesHandler]
  · intro ids hids hne
    subst hids
    match ids, hne with
    | x :: xs, _ => simp [processFilesHandler]

/-- Witness for C10 at a concrete two-element batch. -/
theorem c10_process_endpoint_witness :
    processFilesHandler (some ["a", "b"]) =
      { ok := true, code := "", sessionCreated := true, totalFiles := 2 } :=
  (c10_process_endpoint (some ["a", "b"])).2.1 ["a", "b"] rfl (by decide)

/-! ### Pipeline run lemmas -/

/-- Unfolding `processLoop` at a succeeding file. -/
theorem processLoop_cons_ok (rest : List (Except String Unit)) (n i : Nat) :
    processLoop (Except.ok () :: rest) n i =
      (({ status := none, progress := some (jsRound100 (i + 1) n),
          errorMessage := none } : SessionWrite) :: (processLoop rest n (i + 1)).1,
       FileStatus.completed :: (processLoop rest n (i + 1)).2.1,
       (processLoop rest n (i + 1)).2.2) :=
  rfl

/-- Unfolding `processLoop` at a failing file: the loop stops at once. -/
theorem processLoop_cons_error (msg : String) (rest : List (Except String Unit)) (n i : Nat) :
    processLoop (Except.error msg :: rest) n i =
      ([{ status := none, progress := some (jsRound100 (i + 1) n), errorMessage := none }],
       [FileStatus.failed], some msg) :=
  rfl

/-- The error escaping the loop is the first failing outcome's message. -/
theorem processLoop_error : ∀ (outcomes : List (Except String Unit)) (n i : Nat),
    (processLoop outcomes n i).2.2 = firstError outcomes := by
  intro outcomes
  induction outcomes with
  | nil => intro n i; rfl
  | cons o rest ih =>
    intro n i
    cases o with
    | ok u =>
      cases u
      rw [processLoop_cons_ok]
      exact ih n (i + 1)
    | error msg => rw [processLoop_cons_error]; rfl

/-- No outcome fails exactly when `firstError` is `none`. -/
theorem firstError_eq_none_iff (outcomes : List (Except String Unit)) :
    firstError outcomes = none ↔ ∀ o ∈ outcomes, o = Except.ok () := by
  induction outcomes with
  | nil => simp [firstError]
  | cons o rest ih =>
    cases o with
    | ok u => cases u; simpa [firstError] using ih
    | error msg => simp [firstError]

/-- `firstError` of an all-successful prefix followed by a failure. -/
theorem firstError_append_ok (msg : String) (post : List (Except String Unit)) :
    ∀ pre : List (Except String Unit), (∀ o ∈ pre, o = Except.ok ()) →
    firstError (pre ++ Except.error msg :: post) = some msg := by
  intro pre
  induction pre with
  | nil => intro _; rfl
  | cons o rest ih =>
    intro h
    have ho := h o (List.mem_cons_self o rest)
    subst ho
    rw [List.cons_append]
    exact ih fun o hm => h o (List.mem_cons_of_mem _ hm)

/-- When every file succeeds, the loop marks each file completed. -/
theorem processLoop_statuses_ok : ∀ (outcomes : List (Except String Unit)) (n i : Nat),
    (∀ o ∈ outcomes, o = Except.ok ()) →
    (processLoop outcomes n i).2.1 = List.replicate outcomes.length FileStatus.completed := by
  intro outcomes
  induction outcomes with
  | nil => intro n i _; rfl
  | cons o rest ih =>
    intro n i h
    have ho := h o (List.mem_cons_self o rest)
    subst ho
    rw [processLoop_cons_ok, List.length_cons, List.replicate_succ,
        ih n (i + 1) fun o hm => h o (List.mem_cons_of_mem _ hm)]

/-- When the file at position `pre.length` fails after an all-successful
prefix, the loop's visited statuses are the completed prefix plus one failed
file, and the failure message escapes. -/
theorem processLoop_statuses_err (msg : String) (post : List (Except String Unit)) :
    ∀ (pre : List (Except String Unit)) (n i : Nat), (∀ o ∈ pre, o = Except.ok ()) →
    (processLoop (pre ++ Except.error msg :: post) n i).2.1 =
      List.replicate pre.length FileStatus.completed ++ [FileStatus.failed] ∧
    (processLoop (pre ++ Except.error msg :: post) n i).2.2 = some msg := by
  intro pre
  induction pre with
  | nil =>
    intro n i _
    rw [List.nil_append, processLoop_cons_error]
    exact ⟨rfl, rfl⟩
  | cons o rest ih =>
    intro n i h
    have ho := h o (List.mem_cons_self o rest)
    subst ho
    rw [List.cons_append, processLoop_cons_ok]
    have hr := ih n (i + 1) fun o hm => h o (List.mem_cons_of_mem _ hm)
    rw [List.length_cons, List.replicate_succ, List.cons_append, hr.1]
    exact ⟨rfl, hr.2⟩

/-- Every write the loop emits updates only the progress field. -/
theorem processLoop_writes_fields : ∀ (outcomes : List (Except String Unit)) (n i : Nat),
    ∀ w ∈ (processLoop outcomes n i).1, w.status = none ∧ w.errorMessage = none := by
  intro outcomes
  induction outcomes with
  | nil => intro n i w hw; cases hw
  | cons o rest ih =>
    intro n i w hw
    cases o with
    | ok u =>
      cases u
      rw [processLoop_cons_ok] at hw
      rcases List.mem_cons.mp hw with h | h
      · subst h; exact ⟨rfl, rfl⟩
      · exact ih n (i + 1) w h
    | error msg =>
      rw [processLoop_cons_error] at hw
      rcases List.mem_cons.mp hw with h | h
      · subst h; exact ⟨rfl, rfl⟩
      · cases h

/-- Replaying writes that never carry an error message preserves an absent
error message. -/
theorem foldl_errorMessage_none : ∀ (ws : List SessionWrite),
    (∀ w ∈ ws, w.errorMessage = none) → ∀ s : SessionObs, s.errorMessage = none →
    (ws.foldl applyWrite s).errorMessage = none := by
  intro ws
  induction ws with
  | nil => intro _ s hs; exact hs
  | cons w ws ih =>
    intro h s hs
    rw [List.foldl_cons]
    refine ih (fun w hm => h w (List.mem_cons_of_mem _ hm)) _ ?_
    have hw := (h w (List.mem_cons_self w ws))
    simp [applyWrite, hw, hs]

/-- `jsRound100` is monotone in the numerator. -/
theorem jsRound100_mono (n : Nat) {a b : Nat} (h : a ≤ b) :
    jsRound100 a n ≤ jsRound100 b n := by
  unfold jsRound100
  exact Nat.div_le_div_right (by omega)

/-- `jsRound100 num n ≤ 100` whenever `num ≤ n`. -/
theorem jsRound100_le_100 {num n : Nat} (h : num ≤ n) : jsRound100 num n ≤ 100 := by
  rcases Nat.eq_zero_or_pos n with h0 | hpos
  · subst h0
    have hnum : num = 0 := by omega
    subst hnum
    decide
  · unfold jsRound100
    have h2n : 0 < 2 * n := by omega
    have := (Nat.div_lt_iff_lt_mul h2n).mpr
      (show 200 * num + n < 101 * (2 * n) by omega)
    omega

/-- For batches of at most 10 files the first in-loop progress write is at
least the initial 10. -/
theorem ten_le_jsRound100_one {n : Nat} (h1 : 1 ≤ n) (h2 : n ≤ 10) :
    10 ≤ jsRound100 1 n := by
  unfold jsRound100
  have h2n : 0 < 2 * n := by omega
  rw [Nat.le_div_iff_mul_le h2n]
  omega

/-- `progressMono` at the empty write list. -/
theorem progressMono_nil (p : Nat) : progressMono p [] ↔ True :=
  Iff.rfl

/-- `progressMono` at a cons. -/
theorem progressMono_cons (p : Nat) (w : SessionWrite) (ws : List SessionWrite) :
    progressMono p (w :: ws) ↔
      p ≤ w.progress.getD p ∧ progressMono (w.progress.getD p) ws :=
  Iff.rfl

/-- `finalProgress` at a cons. -/
theorem finalProgress_cons (p : Nat) (w : SessionWrite) (ws : List SessionWrite) :
    finalProgress p (w :: ws) = finalProgress (w.progress.getD p) ws :=
  rfl

/-- `progressMono` splits across an append. -/
theorem progressMono_append : ∀ (xs ys : List SessionWrite) (p : Nat),
    progressMono p (xs ++ ys) ↔
      progressMono p xs ∧ progressMono (finalProgress p xs) ys := by
  intro xs
  induction xs with
  | nil =>
    intro ys p
    rw [List.nil_append]
    simp [progressMono_nil, finalProgress]
  | cons w xs ih =>
    intro ys p
    rw [List.cons_append, progressMono_cons, progressMono_cons, ih, finalProgress_cons]
    tauto

/-- The loop's writes are non-decreasing in progress and end at most at 100,
provided the entry progress is below the first write and the indices stay in
range. -/
theorem processLoop_progressMono : ∀ (outcomes : List (Except String Unit)) (n i p : Nat),
    p ≤ jsRound100 (i + 1) n → i + outcomes.length ≤ n → p ≤ 100 →
    progressMono p (processLoop outcomes n i).1 ∧
    finalProgress p (processLoop outcomes n i).1 ≤ 100 := by
  intro outcomes
  induction outcomes with
  | nil => intro n i p _ _ h3; exact ⟨trivial, h3⟩
  | cons o rest ih =>
    intro n i p h1 h2 h3
    rw [List.length_cons] at h2
    have hle : i + 1 ≤ n := by omega
    have hp100 : jsRound100 (i + 1) n ≤ 100 := jsRound100_le_100 hle
    cases o with
    | ok u =>
      cases u
      rw [processLoop_cons_ok]
      have hrest := ih n (i + 1) (jsRound100 (i + 1) n)
        (jsRound100_mono n (by omega)) (by omega) hp100
      constructor
      · exact ⟨by simpa using h1, hrest.1⟩
      · show finalProgress p (_ :: _) ≤ 100
        unfold finalProgress
        rw [List.foldl_cons]
        exact hrest.2
    | error msg =>
      rw [processLoop_cons_error]
      refine ⟨⟨by simpa using h1, trivial⟩, ?_⟩
      unfold finalProgress
      rw [List.foldl_cons, List.foldl_nil]
      simpa using hp100

/-- Replaying a `progressMono` write list yields a non-decreasing observed
progress sequence. -/
theorem chain_scanl_of_progressMono : ∀ (ws : List SessionWrite) (s : SessionObs),
    progressMono s.progress ws →
    List.Chain' (· ≤ ·) ((ws.scanl applyWrite s).map (fun t => t.progress)) := by
  intro ws
  induction ws with
  | nil =>
    intro s _
    rw [List.scanl_nil]
    simp
  | cons w ws ih =>
    intro s h
    obtain ⟨h1, h2⟩ := h
    have hprog : (applyWrite s w).progress = w.progress.getD s.progress := rfl
    have htail := ih (applyWrite s w) (by rw [hprog]; exact h2)
    rw [List.scanl_cons]
    cases ws with
    | nil =>
      rw [List.scanl_nil]
      simpa [applyWrite] using h1
    | cons w2 ws2 =>
      rw [List.scanl_cons] at htail ⊢
      rw [List.singleton_append, List.singleton_append, List.map_cons, List.map_cons]
      rw [List.singleton_append, List.map_cons] at htail
      exact List.chain'_cons.mpr ⟨by rw [hprog]; exact h1, htail⟩

/-- The run when no file fails: start write, loop writes, completion write,
usage incremented (for an authenticated owner) by the full batch size. -/
theorem processFilesAsync_run_ok (outcomes : List (Except String Unit)) (userId : Option String)
    (h : firstError outcomes = none) :
    processFilesAsync outcomes userId =
      { writes :=
          { status := some SessStatus.processing, progress := some 10, errorMessage := none } ::
            (processLoop outcomes outcomes.length 0).1 ++
            [{ status := some SessStatus.completed, progress := some 100, errorMessage := none }]
        fileStatuses := (processLoop outcomes outcomes.length 0).2.1
        usage :=
          match userId with
          | some _ =>
            { filesProcessedThisMonth := outcomes.length,
              totalFilesProcessed := outcomes.length,
              statsFilesProcessed := outcomes.length,
              statsTextExtracted := outcomes.length }
          | none => UsageDelta.zero } := by
  simp only [processFilesAsync]
  rw [processLoop_error, h]

/-- The run when a file fails: the loop's writes are cut short, the session
is written `failed` with the escaped message, unvisited files stay pending,
and nothing is incremented. -/
theorem processFilesAsync_run_err (outcomes : List (Except String Unit)) (userId : Option String)
    (msg : String) (h : firstError outcomes = some msg) :
    processFilesAsync outcomes userId =
      { writes :=
          { status := some SessStatus.processing, progress := some 10, errorMessage := none } ::
            (processLoop outcomes outcomes.length 0).1 ++
            [{ status := some SessStatus.failed, progress := none, errorMessage := some msg }]
        fileStatuses :=
          (processLoop outcomes outcomes.length 0).2.1 ++
            List.replicate (outcomes.length - (processLoop outcomes outcomes.length 0).2.1.length)
              FileStatus.pending
        usage := UsageDelta.zero } := by
  simp only [processFilesAsync]
  rw [processLoop_error, h]

/-- `finalSession` when the last write stands alone after the rest. -/
theorem finalSession_append_last (ws : List SessionWrite) (w : SessionWrite) :
    finalSession (ws ++ [w]) = applyWrite (finalSession ws) w := by
  unfold finalSession
  rw [List.foldl_append, List.foldl_cons, List.foldl_nil]

/-- After a fully successful run the stored session is `completed` at
progress 100 with no error message. -/
theorem finalSession_run_ok (outcomes : List (Except String Unit)) (userId : Option String)
    (hall : ∀ o ∈ outcomes, o = Except.ok ()) :
    finalSession (processFilesAsync outcomes userId).writes =
      { status := SessStatus.completed, progress := 100, errorMessage := none } := by
  rw [processFilesAsync_run_ok outcomes userId ((firstError_eq_none_iff outcomes).mpr hall)]
  show finalSession
      (({ status := some SessStatus.processing, progress := some 10,
          errorMessage := none } : SessionWrite) ::
        (processLoop outcomes outcomes.length 0).1 ++
        [{ status := some SessStatus.completed, progress := some 100,
           errorMessage := none }]) = _
  rw [finalSession_append_last]
  have hem : (finalSession
      ({ status := some SessStatus.processing, progress := some 10, errorMessage := none } ::
        (processLoop outcomes outcomes.length 0).1)).errorMessage = none := by
    unfold finalSession
    rw [List.foldl_cons]
    exact foldl_errorMessage_none _
      (fun w hw => (processLoop_writes_fields outcomes outcomes.length 0 w hw).2) _ rfl
  simp [applyWrite, hem]

/-- After a run in which a file failed, the stored session is `failed` and
carries the escaped message. -/
theorem finalSession_run_err (outcomes : List (Except String Unit)) (userId : Option String)
    (msg : String) (h : firstError outcomes = some msg) :
    (finalSession (processFilesAsync outcomes userId).writes).status = SessStatus.failed ∧
    (finalSession (processFilesAsync outcomes userId).writes).errorMessage = some msg := by
  rw [processFilesAsync_run_err outcomes userId msg h]
  show (finalSession
      (({ status := some SessStatus.processing, progress := some 10,
          errorMessage := none } : SessionWrite) ::
        (processLoop outcomes outcomes.length 0).1 ++
        [{ status := some SessStatus.failed, progress := none,
           errorMessage := some msg }])).status = SessStatus.failed ∧
    (finalSession
      (({ status := some SessStatus.processing, progress := some 10,
          errorMessage := none } : SessionWrite) ::
        (processLoop outcomes outcomes.length 0).1 ++
        [{ status := some SessStatus.failed, progress := none,
           errorMessage := some msg }])).errorMessage = some msg
  rw [finalSession_append_last]
  exact ⟨rfl, rfl⟩

/-- The non-decreasing progress invariant for a whole run of at most 10
files, for either terminal write. -/
theorem run_writes_progressMono (outcomes : List (Except String Unit))
    (hn : outcomes.length ≤ 10) (lastW : SessionWrite)
    (hlast : lastW.progress = some 100 ∨ lastW.progress = none) :
    progressMono 0
      (({ status := some SessStatus.processing, progress := some 10,
          errorMessage := none } : SessionWrite) ::
        (processLoop outcomes outcomes.length 0).1 ++ [lastW]) := by
  have hloop : progressMono 10 (processLoop outcomes outcomes.length 0).1 ∧
      finalProgress 10 (processLoop outcomes outcomes.length 0).1 ≤ 100 := by
    cases outcomes with
    | nil => exact ⟨trivial, by decide⟩
    | cons o rest =>
      refine processLoop_progressMono (o :: rest) (o :: rest).length 0 10 ?_ (by simp) (by omega)
      exact ten_le_jsRound100_one (by simp) hn
  rw [progressMono_append, progressMono_cons]
  refine ⟨⟨by simp, ?_⟩, ?_⟩
  · exact hloop.1
  · rw [progressMono_cons]
    refine ⟨?_, trivial⟩
    rcases hlast with h100 | hnone
    · rw [h100]
      have hfp : finalProgress 0
          ({ status := some SessStatus.processing, progress := some 10,
             errorMessage := none } :: (processLoop outcomes outcomes.length 0).1) =
          finalProgress 10 (processLoop outcomes outcomes.length 0).1 := rfl
      rw [hfp]
      simpa using hloop.2
    · rw [hnone]
      exact le_rfl

/-- Usage increments of a guest-owned run are always zero. -/
theorem usage_run_guest (outcomes : List (Except String Unit)) :
    (processFilesAsync outcomes none).usage = UsageDelta.zero := by
  cases hfe : firstError outcomes with
  | none => rw [processFilesAsync_run_ok outcomes none hfe]
  | some msg => rw [processFilesAsync_run_err outcomes none msg hfe]

/-- C1 counterexample: in the backend pipeline a failure on the second of
three files is recorded on that file but then re-thrown, so the third file
is never processed and the whole session is marked failed with the escaped
message — the batch is aborted and the error does cross the stage-executor
boundary. -/
theorem c1_backend_counterexample :
    (processFilesAsync [Except.ok (), Except.error "boom", Except.ok ()] none).fileStatuses =
      [FileStatus.completed, FileStatus.failed, FileStatus.pending] ∧
    (finalSession
        (processFilesAsync [Except.ok (), Except.error "boom", Except.ok ()] none).writes).status =
      SessStatus.failed ∧
    (finalSession
        (processFilesAsync [Except.ok (), Except.error "boom", Except.ok ()] none).writes).errorMessage =
      some "boom" := by
  refine ⟨by decide, by decide, by decide⟩

/-- C1 amended: in the backend pipeline a per-file failure does mark the
failing file failed, but the error is re-thrown past `processIndividualFile`,
so the batch is aborted: every earlier file is completed, every later file is
left pending (never visited), the session is marked failed with the escaped
message, and no usage counter is incremented. -/
theorem c1_per_file_failure_aborts (pre post : List (Except String Unit)) (msg : String)
    (userId : Option String) (hpre : ∀ o ∈ pre, o = Except.ok ()) :
    (processFilesAsync (pre ++ Except.error msg :: post) userId).fileStatuses =
      List.replicate pre.length FileStatus.completed ++
        FileStatus.failed :: List.replicate post.length FileStatus.pending ∧
    (finalSession (processFilesAsync (pre ++ Except.error msg :: post) userId).writes).status =
      SessStatus.failed ∧
    (finalSession
        (processFilesAsync (pre ++ Except.error msg :: post) userId).writes).errorMessage =
      some msg ∧
    (processFilesAsync (pre ++ Except.error msg :: post) userId).usage = UsageDelta.zero := by
  have hfe : firstError (pre ++ Except.error msg :: post) = some msg :=
    firstError_append_ok msg post pre hpre
  have hfin := finalSession_run_err (pre ++ Except.error msg :: post) userId msg hfe
  refine ⟨?_, hfin.1, hfin.2, ?_⟩
  · rw [processFilesAsync_run_err _ userId msg hfe]
    have hst := processLoop_statuses_err msg post pre
      (pre ++ Except.error msg :: post).length 0 hpre
    rw [hst.1]
    have hlen : (pre ++ Except.error msg :: post).length -
        (List.replicate pre.length FileStatus.completed ++ [FileStatus.failed]).length =
        post.length := by
      simp
      omega
    rw [hlen, List.append_assoc, List.singleton_append]
  · rw [processFilesAsync_run_err _ userId msg hfe]

/-- Witness for C1 (amended) at a concrete run: one good file, then a
failure, under a registered owner. -/
theorem c1_per_file_failure_aborts_witness :
    (processFilesAsync [Except.ok (), Except.error "oops"] (some "u")).fileStatuses =
      List.replicate 1 FileStatus.completed ++
        FileStatus.failed :: List.replicate 0 FileStatus.pending ∧
    (finalSession
        (processFilesAsync [Except.ok (), Except.error "oops"] (some "u")).writes).status =
      SessStatus.failed ∧
    (finalSession
        (processFilesAsync [Except.ok (), Except.error "oops"] (some "u")).writes).errorMessage =
      some "oops" ∧
    (processFilesAsync [Except.ok (), Except.error "oops"] (some "u")).usage = UsageDelta.zero :=
  c1_per_file_failure_aborts [Except.ok ()] [] "oops" (some "u") (by simp)

/-- C2 counterexample, three ways: (a) for an 11-file batch the progress
sequence decreases (10 then 9); (b) for a 1-file batch the poller can
observe progress 100 while the status is still `processing` (the loop writes
`round(((i+1)/n)*100)` before working on file `i`); (c) a run whose only
file fails ends with status `failed` yet progress 100, so final progress 100
does not imply `completed`. -/
theorem c2_progress_counterexample :
    (¬ List.Chain' (· ≤ ·)
        ((observedStates
            (processFilesAsync (List.replicate 11 (Except.ok ())) none).writes).map
          (fun s => s.progress))) ∧
    ({ status := SessStatus.processing, progress := 100, errorMessage := none } : SessionObs) ∈
      observedStates (processFilesAsync [Except.ok ()] none).writes ∧
    finalSession (processFilesAsync [Except.error "db down"] none).writes =
      { status := SessStatus.failed, progress := 100, errorMessage := some "db down" } := by
  refine ⟨?_, by decide, by decide⟩
  have hlist :
      (observedStates
          (processFilesAsync (List.replicate 11 (Except.ok ())) none).writes).map
        (fun s => s.progress) =
      [0, 10, 9, 18, 27, 36, 45, 55, 64, 73, 82, 91, 100, 100] := by decide
  intro hch
  rw [hlist] at hch
  rcases List.chain'_cons.mp hch with ⟨_, hch2⟩
  rcases List.chain'_cons.mp hch2 with ⟨hle, _⟩
  omega

/-- C2 amended: for batches of at most 10 files the observed progress
sequence is non-decreasing (for 11 or more, the first in-loop write
`round(100/n) ≤ 9` undercuts the initial 10); when every file succeeds the
run ends with the session `completed` at progress exactly 100; and the final
status is `completed` precisely when no file failed — but progress 100 can
be observed before completion, so "progress 100 iff completed" holds only
for the final state of a successful run, not for every observed state. -/
theorem c2_progress_amended (outcomes : List (Except String Unit)) (userId : Option String)
    (hn : outcomes.length ≤ 10) :
    List.Chain' (· ≤ ·)
      ((observedStates (processFilesAsync outcomes userId).writes).map
        (fun s => s.progress)) ∧
    ((∀ o ∈ outcomes, o = Except.ok ()) →
      finalSession (processFilesAsync outcomes userId).writes =
        { status := SessStatus.completed, progress := 100, errorMessage := none }) ∧
    ((finalSession (processFilesAsync outcomes userId).writes).status = SessStatus.completed ↔
      ∀ o ∈ outcomes, o = Except.ok ()) := by
  refine ⟨?_, finalSession_run_ok outcomes userId, ?_, ?_⟩
  · apply chain_scanl_of_progressMono
    show progressMono 0 (processFilesAsync outcomes userId).writes
    cases hfe : firstError outcomes with
    | none =>
      rw [processFilesAsync_run_ok outcomes userId hfe]
      exact run_writes_progressMono outcomes hn _ (Or.inl rfl)
    | some msg =>
      rw [processFilesAsync_run_err outcomes userId msg hfe]
      exact run_writes_progressMono outcomes hn _ (Or.inr rfl)
  · intro hst
    by_contra hnot
    have hne : firstError outcomes ≠ none := fun hfe =>
      hnot ((firstError_eq_none_iff outcomes).mp hfe)
    obtain ⟨msg, hmsg⟩ := Option.ne_none_iff_exists'.mp hne
    have := (finalSession_run_err outcomes userId msg hmsg).1
    rw [hst] at this
    cases this
  · intro hall
    rw [finalSession_run_ok outcomes userId hall]

/-- Witness for C2 (amended) at a concrete successful 2-file run. -/
theorem c2_progress_amended_witness :
    List.Chain' (· ≤ ·)
      ((observedStates (processFilesAsync [Except.ok (), Except.ok ()] (some "u")).writes).map
        (fun s => s.progress)) ∧
    finalSession (processFilesAsync [Except.ok (), Except.ok ()] (some "u")).writes =
      { status := SessStatus.completed, progress := 100, errorMessage := none } :=
  ⟨(c2_progress_amended [Except.ok (), Except.ok ()] (some "u") (by decide)).1,
   (c2_progress_amended [Except.ok (), Except.ok ()] (some "u") (by decide)).2.1 (by simp)⟩

/-- C6: usage accounting fires exactly on successful completion for
registered owners.  When every file succeeds and the owner is registered,
the monthly and total counters and the usage stats are each incremented by
the total number of submitted files; when an error escapes the loop the
session is marked failed with the caught message and nothing is incremented;
a guest-owned run increments nothing, ever. -/
theorem c6_usage_accounting (outcomes : List (Except String Unit)) (userId : Option String) :
    (∀ u, userId = some u → (∀ o ∈ outcomes, o = Except.ok ()) →
      (processFilesAsync outcomes userId).usage =
        { filesProcessedThisMonth := outcomes.length,
          totalFilesProcessed := outcomes.length,
          statsFilesProcessed := outcomes.length,
          statsTextExtracted := outcomes.length } ∧
      (finalSession (processFilesAsync outcomes userId).writes).status =
        SessStatus.completed) ∧
    (∀ msg, firstError outcomes = some msg →
      (processFilesAsync outcomes userId).usage = UsageDelta.zero ∧
      (finalSession (processFilesAsync outcomes userId).writes).status = SessStatus.failed ∧
      (finalSession (processFilesAsync outcomes userId).writes).errorMessage = some msg) ∧
    (userId = none → (processFilesAsync outcomes userId).usage = UsageDelta.zero) := by
  refine ⟨?_, ?_, ?_⟩
  · intro u hu hall
    subst hu
    refine ⟨?_, by rw [finalSession_run_ok outcomes (some u) hall]⟩
    rw [processFilesAsync_run_ok outcomes (some u)
      ((firstError_eq_none_iff outcomes).mpr hall)]
  · intro msg hmsg
    have hfin := finalSession_run_err outcomes userId msg hmsg
    exact ⟨by rw [processFilesAsync_run_err outcomes userId msg hmsg], hfin.1, hfin.2⟩
  · intro hu
    subst hu
    exact usage_run_guest outcomes

/-- Witness for C6: a successful 2-file registered run increments every
counter by 2; the same batch owned by a guest increments nothing. -/
theorem c6_usage_accounting_witness :
    (processFilesAsync [Except.ok (), Except.ok ()] (some "u")).usage =
      { filesProcessedThisMonth := 2, totalFilesProcessed := 2,
        statsFilesProcessed := 2, statsTextExtracted := 2 } ∧
    (processFilesAsync [Except.ok (), Except.ok ()] none).usage = UsageDelta.zero :=
  ⟨((c6_usage_accounting [Except.ok (), Except.ok ()] (some "u")).1 "u" rfl (by simp)).1,
   (c6_usage_accounting [Except.ok (), Except.ok ()] none).2.2 rfl⟩

/-- C3 counterexample: the screen's rename stage (`applyNewFilenames`) marks
a file with no suggested name as renamed anyway — `newName = suggestedName ||
name` falls back to the old name, the old extension is re-appended, and
`isRenamed: true` is set unconditionally. -/
theorem c3_rename_counterexample :
    scanPdfFile.suggestedName = none ∧
    (applyNewFilenames [scanPdfFile]).2 =
      [{ id := "1", name := "scan.pdf.pdf", originalName := "scan.pdf",
         type := FileType.pdf, extractedText := some "Document content",
         suggestedName := none, isRenamed := true, isProcessing := false,
         processingProgress := 100 }] ∧
    ∀ g ∈ (applyNewFilenames [scanPdfFile]).2, g.isRenamed = true := by
  refine ⟨rfl, by decide, by decide⟩

/-- `batchRenameFileStep` never changes a file's suggested name. -/
theorem batchRenameFileStep_suggestedName (f : FileItem) :
    (batchRenameFileStep f).suggestedName = f.suggestedName := by
  unfold batchRenameFileStep
  split <;> rfl

/-- A file without a truthy suggested name passes through `batchRenameFiles`
unchanged. -/
theorem batchRenameFileStep_not_truthy (f : FileItem)
    (h : jsTruthy f.suggestedName = false) : batchRenameFileStep f = f := by
  simp [batchRenameFileStep, h]

/-- C3 amended: the screen's rename stage marks every file `isRenamed = true`
regardless of its suggested name; the service-layer `batchRenameFiles`, by
contrast, passes files without a truthy suggested name through unchanged, so
(for inputs not already marked renamed) `isRenamed = true` there implies a
non-empty `suggestedName`. -/
theorem c3_rename_amended (files : List FileItem) :
    (∀ g ∈ (applyNewFilenames files).2, g.isRenamed = true) ∧
    ((∀ f ∈ files, f.isRenamed = false) →
      ∀ g ∈ batchRenameFiles files, g.isRenamed = true →
        ∃ s, g.suggestedName = some s ∧ s ≠ "") := by
  constructor
  · intro g hg
    simp only [applyNewFilenames] at hg
    rcases List.mem_map.mp hg with ⟨f, _, rfl⟩
    rfl
  · intro hall g hg hren
    simp only [batchRenameFiles] at hg
    rcases List.mem_map.mp hg with ⟨f, hf, rfl⟩
    cases ht : jsTruthy f.suggestedName with
    | false =>
      rw [batchRenameFileStep_not_truthy f ht] at hren
      rw [hall f hf] at hren
      cases hren
    | true =>
      rw [batchRenameFileStep_suggestedName]
      cases hs : f.suggestedName with
      | none => rw [hs] at ht; cases ht
      | some s =>
        refine ⟨s, rfl, ?_⟩
        rw [hs] at ht
        intro hempty
        rw [hempty] at ht
        simp [jsTruthy] at ht

/-- Witness for C3 (amended): a file whose suggested name is "Invoice_X"
comes out of `batchRenameFiles` renamed, and its suggested name was indeed
non-empty. -/
theorem c3_rename_amended_witness :
    ∃ s, (batchRenameFileStep renamableFile).suggestedName = some s ∧ s ≠ "" :=
  (c3_rename_amended [renamableFile]).2 (by simp [renamableFile])
    (batchRenameFileStep renamableFile) (by simp [batchRenameFiles]) rfl

/-- C9: in each client stage function the snapshot reported before working
on the file at position `i` of `n` (element `i + 1` of the stage's update
trace, after the stage-entry update) carries exactly
`baseOffset + (i / n) * stageWeight`, with the stages weighted 33 (extract,
base 0), 33 (analyze, base 33) and 34 (rename, base 66). -/
theorem c9_stage_progress (files : List FileItem) (i : Nat) (h : i < files.length) :
    ((extractTextFromFiles files).1[i + 1]?).map (fun u => u.progress) =
      some (0 + ((i : ℚ) / files.length) * 33) ∧
    ((analyzeFilesWithAI files).1[i + 1]?).map (fun u => u.progress) =
      some (33 + ((i : ℚ) / files.length) * 33) ∧
    ((applyNewFilenames files).1[i + 1]?).map (fun u => u.progress) =
      some (66 + ((i : ℚ) / files.length) * 34) := by
  refine ⟨?_, ?_, ?_⟩
  · simp only [extractTextFromFiles]
    rw [List.getElem?_cons_succ, List.getElem?_map, List.getElem?_enum,
        List.getElem?_eq_getElem h]
    simp
  · simp only [analyzeFilesWithAI]
    rw [List.getElem?_cons_succ, List.getElem?_map, List.getElem?_enum,
        List.getElem?_eq_getElem h]
    simp
  · simp only [applyNewFilenames]
    rw [List.getElem?_cons_succ, List.getElem?_map, List.getElem?_enum,
        List.getElem?_eq_getElem h]
    simp

/-- Witness for C9 at a concrete two-file batch, second file (index 1). -/
theorem c9_stage_progress_witness :
    ((extractTextFromFiles [sampleImageFile, scanPdfFile]).1[2]?).map (fun u => u.progress) =
      some (0 + ((1 : ℚ) / 2) * 33) ∧
    ((analyzeFilesWithAI [sampleImageFile, scanPdfFile]).1[2]?).map (fun u => u.progress) =
      some (33 + ((1 : ℚ) / 2) * 33) ∧
    ((applyNewFilenames [sampleImageFile, scanPdfFile]).1[2]?).map (fun u => u.progress) =
      some (66 + ((1 : ℚ) / 2) * 34) := by
  have := c9_stage_progress [sampleImageFile, scanPdfFile] 1 (by decide)
  simpa using this

end Filesense
